import Mathlib

/-!
# adserver: creative selection and catalog cache

A shallow embedding of `models/entities.go`, `handlers/ad_handlers.go`
(`findApplicableCreative`) and `db/ad_db.go` (the `DB` cache over the SQLite
connection), followed by the properties proved about them.

Conventions of the embedding.

* Go `string` is `String` (text; the code only copies and compares strings), Go
  `int` is `Int` (the code only copies and compares widths and heights, it
  never does arithmetic on them).
* Go `float64` is `Float64` below: NaN, the two infinities, and the finite
  values as rationals.  Every finite `float64` is a rational number and the
  code only copies and compares prices, so the comparison is exact.
* A method with a pointer receiver `func (db *DB) M(args) result` becomes
  `M : DB → env → args → DB × result`: the state after the call and what the
  call returns.  A Go `error` result is `Option DBError` (`none` is `nil`).
* `*sql.DB` is `SqlDB`: the rows of the two tables created by `createTables`.
  Whether a statement fails for a reason of its own (an I/O failure) is an
  explicit argument of each call, over which the theorems quantify.
* `sync.RWMutex` is not modelled: each method is the sequential code of its
  body.  The theorems quantify over every pair of store and cache before the
  call, so the states left by another writer of the store or by a refresh that
  swaps in an older load are among them.
-/

namespace Adserver

/-! ## models/entities.go -/

/-- Go `float64`, as far as the program uses it (copy and compare): NaN, the
infinities and the finite values.  Negative zero is the same value as zero
here; Go's `>` and `==` do not tell them apart either. -/
inductive Float64 where
  | nan
  | negInf
  | fin (q : ℚ)
  | posInf
deriving DecidableEq

namespace Float64

/-- Go `a > b` on `float64`: false as soon as one side is NaN. -/
def gt : Float64 → Float64 → Bool
  | nan, _ => false
  | _, nan => false
  | negInf, _ => false
  | _, posInf => false
  | posInf, _ => true
  | fin _, negInf => true
  | fin a, fin b => decide (b < a)

/-- Go `a >= b` on `float64`: false as soon as one side is NaN. -/
def ge : Float64 → Float64 → Bool
  | nan, _ => false
  | _, nan => false
  | posInf, _ => true
  | _, negInf => true
  | negInf, _ => false
  | fin _, posInf => false
  | fin a, fin b => decide (b ≤ a)

/-- The literal `0.0`. -/
def zero : Float64 := fin 0

end Float64

/-- Go `type AdFormat string`. -/
abbrev AdFormat := String

def Banner : AdFormat := "banner"
def Interstitial : AdFormat := "interstitial"
def Video : AdFormat := "video"

/-- Go `models.AdUnit`. -/
structure AdUnit where
  ID : String
  Format : AdFormat
  Width : Int
  Height : Int
deriving DecidableEq

/-- Go `models.Creative`. -/
structure Creative where
  ID : String
  Format : AdFormat
  Width : Int
  Height : Int
  Content : String
  Price : Float64
deriving DecidableEq

/-! ## handlers/ad_handlers.go -/

/-- The condition of the outer `if` in the loop of `findApplicableCreative`. -/
def applicable (adUnit : AdUnit) (creative : Creative) : Bool :=
  (creative.Format == adUnit.Format) &&
    (creative.Width == adUnit.Width) &&
    (creative.Height == adUnit.Height)

/-- One iteration of the loop of `findApplicableCreative`; the state is the pair
`(selectedCreative, highestPrice)`. -/
def findApplicableCreative.step (adUnit : AdUnit)
    (st : Option Creative × Float64) (creative : Creative) : Option Creative × Float64 :=
  if applicable adUnit creative then
    if creative.Price.gt st.2 then
      (some creative, creative.Price)
    else st
  else st

/-- Go `findApplicableCreative`: `none` is the `nil` pointer. -/
def findApplicableCreative (adUnit : AdUnit) (creatives : List Creative) : Option Creative :=
  (creatives.foldl (findApplicableCreative.step adUnit) (none, Float64.zero)).1

/-- What holds of the loop state `(selectedCreative, highestPrice)` after the
creatives `seen` have been visited (used in the proofs only). -/
structure LoopInv (adUnit : AdUnit) (seen : List Creative)
    (st : Option Creative × Float64) : Prop where
  base : st.2.ge Float64.zero = true
  bound : ∀ x ∈ seen, applicable adUnit x = true → x.Price.gt st.2 = false
  unsel : st.1 = none → st.2 = Float64.zero
  sel : ∀ c, st.1 = some c →
    st.2 = c.Price ∧ applicable adUnit c = true ∧ c.Price.gt Float64.zero = true ∧
      ∃ p q, seen = p ++ c :: q ∧
        ∀ x ∈ p, applicable adUnit x = true → x.Price.ge c.Price = false

/-! ## db/ad_db.go: the SQLite connection -/

/-- An error coming out of `database/sql`: a `sqlite3.Error` with its `Code`, or
any other Go error. -/
inductive SqlError where
  | sqlite (Code : Nat)
  | other
deriving DecidableEq

/-- The constant `sqlite3.ErrConstraint` (SQLITE_CONSTRAINT). -/
def ErrConstraint : Nat := 19

/-- A Go `error` made in `ad_db.go`: `fmt.Errorf(format, arg)` without a wrapped
cause, or `fmt.Errorf(format, err)` wrapping (`%w`) a driver error or another
such error. -/
inductive DBError where
  | errorf (format : String) (arg : Option String)
  | wrapSql (format : String) (err : SqlError)
  | wrap (format : String) (err : DBError)
deriving DecidableEq

/-- Modelled from the spec: the handle `*sql.DB` on the SQLite file, which is
not code of this repository.  It holds the rows of the two tables that
`createTables` declares (`AdUnits` and `Creatives`, each with `ID TEXT PRIMARY
KEY`), in insertion order. -/
structure SqlDB where
  AdUnits : List AdUnit
  Creatives : List Creative
deriving DecidableEq

/-- Modelled from the spec: `Connection.Exec("INSERT INTO AdUnits ...")`.  The
statement fails with `fault` when the environment makes it fail (I/O failure),
fails with the constraint error when a row with this `ID` exists (primary key),
and adds the row otherwise.  A failed statement changes no table. -/
def SqlDB.execInsertAdUnit (conn : SqlDB) (fault : Option SqlError) (adUnit : AdUnit) :
    SqlDB × Option SqlError :=
  match fault with
  | some err => (conn, some err)
  | none =>
    if conn.AdUnits.any (fun row => row.ID == adUnit.ID) then
      (conn, some (SqlError.sqlite ErrConstraint))
    else
      ({ conn with AdUnits := conn.AdUnits ++ [adUnit] }, none)

/-- Modelled from the spec: `Connection.Exec("INSERT INTO Creatives ...")`, as
`SqlDB.execInsertAdUnit`. -/
def SqlDB.execInsertCreative (conn : SqlDB) (fault : Option SqlError) (creative : Creative) :
    SqlDB × Option SqlError :=
  match fault with
  | some err => (conn, some err)
  | none =>
    if conn.Creatives.any (fun row => row.ID == creative.ID) then
      (conn, some (SqlError.sqlite ErrConstraint))
    else
      ({ conn with Creatives := conn.Creatives ++ [creative] }, none)

/-- How the environment makes one `SELECT` fail: not at all, at `Query`, at the
`Scan` of row `i`, or by ending the iteration after `n` rows with `rows.Err()`
set. -/
inductive QueryFault where
  | none
  | query (err : SqlError)
  | scan (i : Nat) (err : SqlError)
  | rows (n : Nat) (err : SqlError)
deriving DecidableEq

/-- Go `*sql.Rows`: what each `rows.Scan` of the iteration gives, in order, and
what `rows.Err()` gives after it. -/
structure Rows (α : Type) where
  scans : List (Except SqlError α)
  err : Option SqlError

/-- Modelled from the spec: `db.Query("SELECT ... FROM table")`, a full scan of
the table in its order, under the fault chosen by the environment. -/
def Query {α : Type} (table : List α) : QueryFault → Except SqlError (Rows α)
  | QueryFault.none => Except.ok ⟨table.map Except.ok, Option.none⟩
  | QueryFault.query err => Except.error err
  | QueryFault.scan i err =>
    Except.ok ⟨(table.enum.map fun jr => if jr.1 = i then Except.error err else Except.ok jr.2),
      Option.none⟩
  | QueryFault.rows n err => Except.ok ⟨(table.take n).map Except.ok, some err⟩

/-! ## db/ad_db.go: the cache -/

/-- Go `db.DB`, without the mutex. -/
structure DB where
  Connection : SqlDB
  adUnits : List AdUnit
  creatives : List Creative
deriving DecidableEq

/-- The loop `for rows.Next() { Scan; append }` of `getAllAdUnits` and
`getAllCreatives`: the first failing `Scan` is returned. -/
def scanRows {α : Type} : List (Except SqlError α) → List α → Except SqlError (List α)
  | [], acc => Except.ok acc
  | Except.error err :: _, _ => Except.error err
  | Except.ok row :: rest, acc => scanRows rest (acc ++ [row])

/-- Go `getAllAdUnits`. -/
def getAllAdUnits (db : SqlDB) (fault : QueryFault) : Except DBError (List AdUnit) :=
  match Query db.AdUnits fault with
  | Except.error err => Except.error (DBError.wrapSql "failed to retrieve AdUnits: %w" err)
  | Except.ok rows =>
    match scanRows rows.scans [] with
    | Except.error err => Except.error (DBError.wrapSql "failed to scan AdUnit: %w" err)
    | Except.ok adUnits =>
      match rows.err with
      | some err => Except.error (DBError.wrapSql "error in rows: %w" err)
      | none => Except.ok adUnits

/-- Go `getAllCreatives`. -/
def getAllCreatives (db : SqlDB) (fault : QueryFault) : Except DBError (List Creative) :=
  match Query db.Creatives fault with
  | Except.error err => Except.error (DBError.wrapSql "failed to retrieve Creatives: %w" err)
  | Except.ok rows =>
    match scanRows rows.scans [] with
    | Except.error err => Except.error (DBError.wrapSql "failed to scan Creative: %w" err)
    | Except.ok creatives =>
      match rows.err with
      | some err => Except.error (DBError.wrapSql "error in rows: %w" err)
      | none => Except.ok creatives

/-- Go `createTables`: two `CREATE TABLE IF NOT EXISTS`, each of which either
fails or leaves the rows as they are. -/
def createTables (_db : SqlDB) (faultAdUnits faultCreatives : Option SqlError) :
    Option DBError :=
  match faultAdUnits with
  | some err => some (DBError.wrapSql "failed to create AdUnits table: %w" err)
  | none =>
    match faultCreatives with
    | some err => some (DBError.wrapSql "failed to create Creatives table: %w" err)
    | none => none

/-- What the environment answers during `NewDB`. -/
structure NewDBEnv where
  openErr : Option SqlError
  createAdUnits : Option SqlError
  createCreatives : Option SqlError
  loadAdUnits : QueryFault
  loadCreatives : QueryFault

/-- Go `NewDB`; `file` is the content of `./ad.db` when it is opened.  The
goroutine it starts only ever calls `RefreshCache`. -/
def NewDB (file : SqlDB) (env : NewDBEnv) : Except DBError DB :=
  match env.openErr with
  | some err => Except.error (DBError.wrapSql "failed to open database connection: %w" err)
  | none =>
    match createTables file env.createAdUnits env.createCreatives with
    | some err => Except.error (DBError.wrap "failed to create tables: %w" err)
    | none =>
      match getAllAdUnits file env.loadAdUnits with
      | Except.error err => Except.error (DBError.wrap "failed to retrieve AdUnits: %w" err)
      | Except.ok adUnits =>
        match getAllCreatives file env.loadCreatives with
        | Except.error err => Except.error (DBError.wrap "failed to retrieve Creatives: %w" err)
        | Except.ok creatives =>
          Except.ok { Connection := file, adUnits := adUnits, creatives := creatives }

/-- Go `(*DB).RefreshCache`. -/
def RefreshCache (db : DB) (faultAdUnits faultCreatives : QueryFault) : DB × Option DBError :=
  match getAllAdUnits db.Connection faultAdUnits with
  | Except.error err => (db, some (DBError.wrap "failed to retrieve AdUnits: %w" err))
  | Except.ok adUnits =>
    match getAllCreatives db.Connection faultCreatives with
    | Except.error err => (db, some (DBError.wrap "failed to retrieve Creatives: %w" err))
    | Except.ok creatives => ({ db with adUnits := adUnits, creatives := creatives }, none)

/-- The test `ok && sqliteErr.Code == sqlite3.ErrConstraint` of the two inserts. -/
def isConstraint : SqlError → Bool
  | SqlError.sqlite code => code == ErrConstraint
  | SqlError.other => false

/-- Go `(*DB).InsertAdUnit`. -/
def InsertAdUnit (db : DB) (fault : Option SqlError) (adUnit : AdUnit) : DB × Option DBError :=
  match db.Connection.execInsertAdUnit fault adUnit with
  | (conn, some err) =>
    if isConstraint err then
      ({ db with Connection := conn },
        some (DBError.errorf "a AdUnit with ID '%s' already exists" (some adUnit.ID)))
    else
      ({ db with Connection := conn },
        some (DBError.wrapSql "failed to insert AdUnit into the database: %w" err))
  | (conn, none) =>
    ({ db with Connection := conn, adUnits := db.adUnits ++ [adUnit] }, none)

/-- Go `(*DB).InsertCreative`. -/
def InsertCreative (db : DB) (fault : Option SqlError) (creative : Creative) :
    DB × Option DBError :=
  match db.Connection.execInsertCreative fault creative with
  | (conn, some err) =>
    if isConstraint err then
      ({ db with Connection := conn },
        some (DBError.errorf "a Creative with ID '%s' already exists" (some creative.ID)))
    else
      ({ db with Connection := conn },
        some (DBError.wrapSql "failed to insert Creative into the database: %w" err))
  | (conn, none) =>
    ({ db with Connection := conn, creatives := db.creatives ++ [creative] }, none)

/-- The loop of `GetAdUnitByID` with the `return` after it. -/
def GetAdUnitByID.loop (id : String) : List AdUnit → Except DBError AdUnit
  | [] => Except.error (DBError.errorf "AdUnit not found" none)
  | adUnit :: rest => if adUnit.ID = id then Except.ok adUnit else GetAdUnitByID.loop id rest

/-- Go `(*DB).GetAdUnitByID`. -/
def GetAdUnitByID (db : DB) (id : String) : DB × Except DBError AdUnit :=
  (db, GetAdUnitByID.loop id db.adUnits)

/-- The loop of `GetCreativeByID` with the `return` after it. -/
def GetCreativeByID.loop (id : String) : List Creative → Except DBError Creative
  | [] => Except.error (DBError.errorf "creative not found" none)
  | creative :: rest =>
    if creative.ID = id then Except.ok creative else GetCreativeByID.loop id rest

/-- Go `(*DB).GetCreativeByID`. -/
def GetCreativeByID (db : DB) (id : String) : DB × Except DBError Creative :=
  (db, GetCreativeByID.loop id db.creatives)

/-- Go `(*DB).GetCreatives`; the copy of the slice is the list itself. -/
def GetCreatives (db : DB) : DB × Except DBError (List Creative) :=
  if db.creatives.length = 0 then
    (db, Except.error (DBError.errorf "no Creatives found in cache" none))
  else
    (db, Except.ok db.creatives)

/-- Every key in the cache is the key of a row of the store. -/
def KeysStored (db : DB) : Prop :=
  (∀ a ∈ db.adUnits, ∃ row ∈ db.Connection.AdUnits, row.ID = a.ID) ∧
    (∀ c ∈ db.creatives, ∃ row ∈ db.Connection.Creatives, row.ID = c.ID)

/-! ## Concrete inputs -/

/-- The ad unit `{banner, 300, 250}`. -/
def exAdUnit : AdUnit := ⟨"adunit1", Banner, 300, 250⟩

/-- The creative `{price 1.5, banner, 300, 250}`; the price is the reduced fraction `3/2`. -/
def exCreative15 : Creative :=
  ⟨"creative1", Banner, 300, 250, "Sample Banner Ad", Float64.fin (Rat.mk' 3 2 (by decide) (by decide))⟩

/-- The creative `{price 3.0, banner, 300, 250}`. -/
def exCreative30 : Creative := ⟨"creative2", Banner, 300, 250, "Second Banner Ad", Float64.fin 3⟩

/-- The creative `{price 2.0, interstitial, 1024, 768}`. -/
def exCreative20 : Creative :=
  ⟨"creative3", Interstitial, 1024, 768, "Sample Interstitial Ad", Float64.fin 2⟩

/-- A second banner creative of price `3.0`. -/
def exCreativeTie : Creative := ⟨"creative4", Banner, 300, 250, "Third Banner Ad", Float64.fin 3⟩

/-- A banner creative of price `0`. -/
def exCreativeFree : Creative := ⟨"creative5", Banner, 300, 250, "Free Banner Ad", Float64.fin 0⟩

/-- An ad unit with the key of `exAdUnit` and another format and size. -/
def exAdUnitSameKey : AdUnit := ⟨"adunit1", Video, 1000, 700⟩

/-- A second ad unit, `{interstitial, 1024, 768}`. -/
def exAdUnit2 : AdUnit := ⟨"adunit2", Interstitial, 1024, 768⟩

/-- An empty store: both tables without rows. -/
def exEmptyFile : SqlDB := ⟨[], []⟩

/-- An environment in which nothing fails during `NewDB`. -/
def exQuietEnv : NewDBEnv := ⟨none, none, none, QueryFault.none, QueryFault.none⟩

/-- The cache right after `NewDB` on the empty store. -/
def exFreshDB : DB := ⟨exEmptyFile, [], []⟩

/-- A store with one ad unit and two creatives. -/
def exFile : SqlDB := ⟨[exAdUnit], [exCreative15, exCreative30]⟩

/-- The cache right after `NewDB` on `exFile`. -/
def exDB : DB := ⟨exFile, [exAdUnit], [exCreative15, exCreative30]⟩

/-- A cache that lags the store `exFile`: no entry yet. -/
def exLaggingDB : DB := ⟨exFile, [], []⟩

/-- A cache that still holds `exAdUnit` and `exCreative15` over a store from
which another writer has deleted every row. -/
def exStaleDB : DB := ⟨exEmptyFile, [exAdUnit], [exCreative15]⟩

/-- A creative with the key of `exCreative15` and another content and price. -/
def exCreativeSameKey : Creative :=
  ⟨"creative1", Video, 1000, 700, "Sample Video Ad", Float64.fin 7⟩

/-! ## Facts about the `float64` comparisons -/

theorem Float64.gt_irrefl (a : Float64) : a.gt a = false := by
  cases a <;> simp [Float64.gt]

theorem Float64.gt_trans {a b c : Float64} (hab : a.gt b = true) (hbc : b.gt c = true) :
    a.gt c = true := by
  cases a <;> cases b <;> cases c <;> simp_all [Float64.gt]
  exact lt_trans hbc hab

theorem Float64.ge_gt_trans {a b c : Float64} (hab : a.ge b = true) (hbc : b.gt c = true) :
    a.gt c = true := by
  cases a <;> cases b <;> cases c <;> simp_all [Float64.gt, Float64.ge]
  exact lt_of_lt_of_le hbc hab

theorem Float64.gt_ge_trans {a b c : Float64} (hab : a.gt b = true) (hbc : b.ge c = true) :
    a.gt c = true := by
  cases a <;> cases b <;> cases c <;> simp_all [Float64.gt, Float64.ge]
  exact lt_of_le_of_lt hbc hab

theorem Float64.ge_of_gt {a b : Float64} (hab : a.gt b = true) : a.ge b = true := by
  cases a <;> cases b <;> simp_all [Float64.gt, Float64.ge]
  exact le_of_lt hab

theorem Float64.ge_of_not_gt {a b : Float64} (ha : a ≠ Float64.nan) (hb : b ≠ Float64.nan)
    (h : b.gt a = false) : a.ge b = true := by
  cases a <;> cases b <;> simp_all [Float64.gt, Float64.ge]

theorem Float64.ne_nan_of_gt {a b : Float64} (h : a.gt b = true) : a ≠ Float64.nan := by
  cases a <;> simp_all [Float64.gt]

theorem Float64.ne_of_gt {a b : Float64} (h : a.gt b = true) : a ≠ b := by
  intro hab
  rw [hab, Float64.gt_irrefl] at h
  exact Bool.false_ne_true h

theorem Float64.ne_of_ge_eq_false {a b : Float64} (hb : b ≠ Float64.nan)
    (h : a.ge b = false) : a ≠ b := by
  intro hab
  subst hab
  cases a <;> simp_all [Float64.ge]

/-! ## The loop invariant of `findApplicableCreative` -/

theorem LoopInv.init (adUnit : AdUnit) : LoopInv adUnit [] (none, Float64.zero) where
  base := by simp [Float64.zero, Float64.ge]
  bound := by simp
  unsel := fun _ => rfl
  sel := by simp

theorem LoopInv.step {adUnit : AdUnit} {seen : List Creative}
    {st : Option Creative × Float64} (h : LoopInv adUnit seen st) (y : Creative) :
    LoopInv adUnit (seen ++ [y]) (findApplicableCreative.step adUnit st y) := by
  unfold findApplicableCreative.step
  by_cases hy : applicable adUnit y = true
  · by_cases hgt : y.Price.gt st.2 = true
    · simp only [hy, hgt, if_true]
      refine ⟨Float64.ge_of_gt (Float64.gt_ge_trans hgt h.base), ?_, by simp, ?_⟩
      · intro x hx hax
        rcases List.mem_append.1 hx with hx | hx
        · cases hxy : x.Price.gt y.Price
          · rfl
          · have := Float64.gt_trans hxy hgt
            rw [h.bound x hx hax] at this
            exact absurd this Bool.false_ne_true
        · rw [List.mem_singleton.1 hx]
          exact Float64.gt_irrefl _
      · intro c hc
        have hc : y = c := by simpa using hc
        subst hc
        refine ⟨rfl, hy, Float64.gt_ge_trans hgt h.base, seen, [], rfl, ?_⟩
        intro x hx hax
        cases hxy : x.Price.ge y.Price
        · rfl
        · have := Float64.ge_gt_trans hxy hgt
          rw [h.bound x hx hax] at this
          exact absurd this Bool.false_ne_true
    · have hgt : y.Price.gt st.2 = false := by simpa using hgt
      simp only [hy, hgt, if_true, Bool.false_eq_true, if_false]
      refine ⟨h.base, ?_, h.unsel, ?_⟩
      · intro x hx hax
        rcases List.mem_append.1 hx with hx | hx
        · exact h.bound x hx hax
        · rw [List.mem_singleton.1 hx]
          exact hgt
      · intro c hc
        obtain ⟨h1, h2, h3, p, q, hpq, hp⟩ := h.sel c hc
        exact ⟨h1, h2, h3, p, q ++ [y], by simp [hpq], hp⟩
  · have hy : applicable adUnit y = false := by simpa using hy
    simp only [hy, Bool.false_eq_true, if_false]
    refine ⟨h.base, ?_, h.unsel, ?_⟩
    · intro x hx hax
      rcases List.mem_append.1 hx with hx | hx
      · exact h.bound x hx hax
      · rw [List.mem_singleton.1 hx, hy] at hax
        exact absurd hax Bool.false_ne_true
    · intro c hc
      obtain ⟨h1, h2, h3, p, q, hpq, hp⟩ := h.sel c hc
      exact ⟨h1, h2, h3, p, q ++ [y], by simp [hpq], hp⟩

theorem LoopInv.foldl {adUnit : AdUnit} (rest : List Creative) :
    ∀ {seen : List Creative} {st : Option Creative × Float64}, LoopInv adUnit seen st →
      LoopInv adUnit (seen ++ rest) (rest.foldl (findApplicableCreative.step adUnit) st) := by
  induction rest with
  | nil => intro seen st h; simpa using h
  | cons y ys ih =>
    intro seen st h
    have := ih (h.step y)
    simpa using this

/-- The invariant holds of the final loop state, for the whole input. -/
theorem loopInv_final (adUnit : AdUnit) (creatives : List Creative) :
    LoopInv adUnit creatives
      (creatives.foldl (findApplicableCreative.step adUnit) (none, Float64.zero)) := by
  simpa using LoopInv.foldl creatives (LoopInv.init adUnit)

/-! ## Selection: the results -/

theorem applicable_iff (adUnit : AdUnit) (creative : Creative) :
    applicable adUnit creative = true ↔
      creative.Format = adUnit.Format ∧ creative.Width = adUnit.Width ∧
        creative.Height = adUnit.Height := by
  simp [applicable, and_assoc]

/-- What the invariant says of a returned creative: where it stands in the
input and how its price compares with the others. -/
theorem findApplicableCreative_some {adUnit : AdUnit} {creatives : List Creative}
    {c : Creative} (h : findApplicableCreative adUnit creatives = some c) :
    applicable adUnit c = true ∧ c.Price.gt Float64.zero = true ∧
      (∀ x ∈ creatives, applicable adUnit x = true → x.Price.gt c.Price = false) ∧
      ∃ p q, creatives = p ++ c :: q ∧
        ∀ x ∈ p, applicable adUnit x = true → x.Price.ge c.Price = false := by
  have inv := loopInv_final adUnit creatives
  obtain ⟨h1, h2, h3, h4⟩ := inv.sel c h
  refine ⟨h2, h3, ?_, h4⟩
  intro x hx hax
  rw [← h1]
  exact inv.bound x hx hax

/-- C1: when some creative of the list has the format, width and height of the
ad unit and a price above 0, and no price is NaN, `findApplicableCreative`
returns a creative of the list that has the format, width and height of the ad
unit and whose price is at least the price of every such creative. -/
theorem findApplicableCreative_highest (adUnit : AdUnit) (creatives : List Creative)
    (hnan : ∀ x ∈ creatives, x.Price ≠ Float64.nan)
    (hex : ∃ x ∈ creatives, x.Format = adUnit.Format ∧ x.Width = adUnit.Width ∧
      x.Height = adUnit.Height ∧ x.Price.gt Float64.zero = true) :
    ∃ c, findApplicableCreative adUnit creatives = some c ∧ c ∈ creatives ∧
      c.Format = adUnit.Format ∧ c.Width = adUnit.Width ∧ c.Height = adUnit.Height ∧
      ∀ x ∈ creatives, x.Format = adUnit.Format → x.Width = adUnit.Width →
        x.Height = adUnit.Height → c.Price.ge x.Price = true := by
  obtain ⟨y, hy, hf, hw, hh, hpos⟩ := hex
  have hay : applicable adUnit y = true := (applicable_iff _ _).2 ⟨hf, hw, hh⟩
  have inv := loopInv_final adUnit creatives
  cases hres : findApplicableCreative adUnit creatives with
  | none =>
    have hz := inv.unsel hres
    have hb := inv.bound y hy hay
    rw [hz, hpos] at hb
    exact absurd hb (by decide)
  | some c =>
    obtain ⟨hac, _, hmax, p, q, hpq, _⟩ := findApplicableCreative_some hres
    have hmem : c ∈ creatives := by rw [hpq]; simp
    obtain ⟨cf, cw, ch⟩ := (applicable_iff _ _).1 hac
    refine ⟨c, rfl, hmem, cf, cw, ch, ?_⟩
    intro x hx xf xw xh
    exact Float64.ge_of_not_gt (hnan c hmem) (hnan x hx)
      (hmax x hx ((applicable_iff _ _).2 ⟨xf, xw, xh⟩))

/-- The example of the specification: the creative of price 3.0 is returned. -/
theorem findApplicableCreative_highest_witness :
    findApplicableCreative exAdUnit [exCreative15, exCreative30, exCreative20]
        = some exCreative30 ∧
      ∃ c, findApplicableCreative exAdUnit [exCreative15, exCreative30, exCreative20] = some c ∧
        c ∈ [exCreative15, exCreative30, exCreative20] ∧
        c.Format = exAdUnit.Format ∧ c.Width = exAdUnit.Width ∧ c.Height = exAdUnit.Height ∧
        ∀ x ∈ [exCreative15, exCreative30, exCreative20], x.Format = exAdUnit.Format →
          x.Width = exAdUnit.Width → x.Height = exAdUnit.Height → c.Price.ge x.Price = true :=
  ⟨by decide,
    findApplicableCreative_highest exAdUnit [exCreative15, exCreative30, exCreative20]
      (by decide) ⟨exCreative15, by decide, by decide, by decide, by decide, by decide⟩⟩

/-- C2: a creative returned by `findApplicableCreative` stands at an index `i`
of the list, has the format, width and height of the ad unit, no creative of the
list with that format, width and height has a greater price, and none of them
at an index below `i` has the same price. -/
theorem findApplicableCreative_first_of_max (adUnit : AdUnit) (creatives : List Creative)
    (c : Creative) (h : findApplicableCreative adUnit creatives = some c) :
    ∃ i : Nat, creatives[i]? = some c ∧
      (c.Format = adUnit.Format ∧ c.Width = adUnit.Width ∧ c.Height = adUnit.Height) ∧
      (∀ x ∈ creatives, x.Format = adUnit.Format → x.Width = adUnit.Width →
        x.Height = adUnit.Height → x.Price.gt c.Price = false) ∧
      ∀ j : Nat, j < i → ∀ x : Creative, creatives[j]? = some x → x.Format = adUnit.Format →
        x.Width = adUnit.Width → x.Height = adUnit.Height → x.Price ≠ c.Price := by
  obtain ⟨hac, hpos, hmax, p, q, hpq, hpre⟩ := findApplicableCreative_some h
  refine ⟨p.length, ?_, (applicable_iff _ _).1 hac, ?_, ?_⟩
  · rw [hpq, List.getElem?_append_right (Nat.le_refl _)]; simp
  · intro x hx xf xw xh
    exact hmax x hx ((applicable_iff _ _).2 ⟨xf, xw, xh⟩)
  · intro j hj x hjx xf xw xh
    have hxp : x ∈ p := by
      rw [hpq, List.getElem?_append_left hj] at hjx
      exact List.getElem?_mem hjx
    exact Float64.ne_of_ge_eq_false (Float64.ne_nan_of_gt hpos)
      (hpre x hxp ((applicable_iff _ _).2 ⟨xf, xw, xh⟩))

/-- Two banner creatives of the same, maximal price: the first one is returned. -/
theorem findApplicableCreative_first_of_max_witness :
    findApplicableCreative exAdUnit [exCreative15, exCreative30, exCreativeTie]
        = some exCreative30 ∧
      ∃ i : Nat, [exCreative15, exCreative30, exCreativeTie][i]? = some exCreative30 ∧
        (exCreative30.Format = exAdUnit.Format ∧ exCreative30.Width = exAdUnit.Width ∧
          exCreative30.Height = exAdUnit.Height) ∧
        (∀ x ∈ [exCreative15, exCreative30, exCreativeTie], x.Format = exAdUnit.Format →
          x.Width = exAdUnit.Width → x.Height = exAdUnit.Height →
          x.Price.gt exCreative30.Price = false) ∧
        ∀ j : Nat, j < i → ∀ x : Creative, [exCreative15, exCreative30, exCreativeTie][j]? = some x →
          x.Format = exAdUnit.Format → x.Width = exAdUnit.Width →
          x.Height = exAdUnit.Height → x.Price ≠ exCreative30.Price :=
  ⟨by decide,
    findApplicableCreative_first_of_max exAdUnit [exCreative15, exCreative30, exCreativeTie]
      exCreative30 (by decide)⟩

/-- C3: a creative returned by `findApplicableCreative` has a price above 0, so
its price is not 0; and for a single creative that has the format, width and
height of the ad unit and price 0 the result is `none`. -/
theorem findApplicableCreative_never_zero (adUnit : AdUnit) :
    (∀ (creatives : List Creative) (c : Creative),
      findApplicableCreative adUnit creatives = some c →
        c.Price.gt Float64.zero = true ∧ c.Price ≠ Float64.zero) ∧
    (∀ c0 : Creative, c0.Format = adUnit.Format → c0.Width = adUnit.Width →
      c0.Height = adUnit.Height → c0.Price = Float64.zero →
        findApplicableCreative adUnit [c0] = none) := by
  have key : ∀ (creatives : List Creative) (c : Creative),
      findApplicableCreative adUnit creatives = some c →
        c.Price.gt Float64.zero = true ∧ c.Price ≠ Float64.zero := by
    intro creatives c h
    obtain ⟨_, hpos, _⟩ := findApplicableCreative_some h
    exact ⟨hpos, Float64.ne_of_gt hpos⟩
  refine ⟨key, ?_⟩
  intro c0 _ _ _ hz
  cases hres : findApplicableCreative adUnit [c0] with
  | none => rfl
  | some c =>
    obtain ⟨_, _, _, p, q, hpq, _⟩ := findApplicableCreative_some hres
    have hmem : c ∈ [c0] := by rw [hpq]; simp
    have hc : c = c0 := by simpa using hmem
    subst hc
    exact absurd hz (key [c] c hres).2

/-- A list in which the free banner comes with a priced one, and the free banner alone. -/
theorem findApplicableCreative_never_zero_witness :
    (findApplicableCreative exAdUnit [exCreativeFree, exCreative15] = some exCreative15 ∧
      exCreative15.Price.gt Float64.zero = true ∧ exCreative15.Price ≠ Float64.zero) ∧
    findApplicableCreative exAdUnit [exCreativeFree] = none :=
  ⟨⟨by decide,
      (findApplicableCreative_never_zero exAdUnit).1 [exCreativeFree, exCreative15]
        exCreative15 (by decide)⟩,
    (findApplicableCreative_never_zero exAdUnit).2 exCreativeFree
      (by decide) (by decide) (by decide) (by decide)⟩

/-- C4: when no creative of the list (the empty list included) has the format,
width and height of the ad unit, `findApplicableCreative` returns `none`, the
nil pointer; the function has no error result. -/
theorem findApplicableCreative_none (adUnit : AdUnit) (creatives : List Creative)
    (h : ∀ x ∈ creatives, ¬ (x.Format = adUnit.Format ∧ x.Width = adUnit.Width ∧
      x.Height = adUnit.Height)) :
    findApplicableCreative adUnit creatives = none := by
  cases hres : findApplicableCreative adUnit creatives with
  | none => rfl
  | some c =>
    obtain ⟨hac, _, _, p, q, hpq, _⟩ := findApplicableCreative_some hres
    have hmem : c ∈ creatives := by rw [hpq]; simp
    exact absurd ((applicable_iff _ _).1 hac) (h c hmem)

/-- A list with one interstitial creative only, for the banner ad unit. -/
theorem findApplicableCreative_none_witness :
    (∀ x ∈ [exCreative20], ¬ (x.Format = exAdUnit.Format ∧ x.Width = exAdUnit.Width ∧
      x.Height = exAdUnit.Height)) ∧
    findApplicableCreative exAdUnit [exCreative20] = none ∧
    findApplicableCreative exAdUnit [] = none :=
  ⟨by decide, findApplicableCreative_none exAdUnit [exCreative20] (by decide),
    findApplicableCreative_none exAdUnit [] (by simp)⟩



/-! ## The cache: auxiliary facts -/

theorem scanRows_mem {α : Type} (scans : List (Except SqlError α)) :
    ∀ (acc out : List α), scanRows scans acc = Except.ok out →
      ∀ x ∈ out, x ∈ acc ∨ Except.ok x ∈ scans := by
  induction scans with
  | nil =>
    intro acc out h x hx
    simp only [scanRows, Except.ok.injEq] at h
    subst h
    exact Or.inl hx
  | cons s rest ih =>
    intro acc out h x hx
    cases s with
    | error e => simp [scanRows] at h
    | ok row =>
      simp only [scanRows] at h
      rcases ih _ _ h x hx with hacc | hrest
      · rcases List.mem_append.1 hacc with h1 | h1
        · exact Or.inl h1
        · right
          rw [List.mem_singleton.1 h1]
          exact List.mem_cons_self _ _
      · exact Or.inr (List.mem_cons_of_mem _ hrest)

theorem Query_mem {α : Type} (table : List α) (fault : QueryFault) (rows : Rows α)
    (h : Query table fault = Except.ok rows) :
    ∀ x, Except.ok x ∈ rows.scans → x ∈ table := by
  intro x hx
  cases fault with
  | none =>
    simp only [Query, Except.ok.injEq] at h
    subst h
    simpa using hx
  | query err => simp [Query] at h
  | scan i err =>
    simp only [Query, Except.ok.injEq] at h
    subst h
    simp only [List.mem_map] at hx
    obtain ⟨jr, hjr, hval⟩ := hx
    split_ifs at hval
    have : jr.2 = x := by simpa using hval
    rw [← this]
    exact List.snd_mem_of_mem_enum hjr
  | rows n err =>
    simp only [Query, Except.ok.injEq] at h
    subst h
    simp only [List.mem_map] at hx
    obtain ⟨y, hy, hval⟩ := hx
    have : y = x := by simpa using hval
    rw [← this]
    exact List.mem_of_mem_take hy

theorem getAllAdUnits_mem {conn : SqlDB} {fault : QueryFault} {adUnits : List AdUnit}
    (h : getAllAdUnits conn fault = Except.ok adUnits) : ∀ x ∈ adUnits, x ∈ conn.AdUnits := by
  intro x hx
  unfold getAllAdUnits at h
  split at h
  · simp at h
  · rename_i rows hq
    split at h
    · simp at h
    · rename_i out hs
      split at h
      · simp at h
      · simp only [Except.ok.injEq] at h
        subst h
        rcases scanRows_mem _ _ _ hs x hx with h1 | h1
        · simp at h1
        · exact Query_mem _ _ _ hq x h1

theorem getAllCreatives_mem {conn : SqlDB} {fault : QueryFault} {creatives : List Creative}
    (h : getAllCreatives conn fault = Except.ok creatives) :
    ∀ x ∈ creatives, x ∈ conn.Creatives := by
  intro x hx
  unfold getAllCreatives at h
  split at h
  · simp at h
  · rename_i rows hq
    split at h
    · simp at h
    · rename_i out hs
      split at h
      · simp at h
      · simp only [Except.ok.injEq] at h
        subst h
        rcases scanRows_mem _ _ _ hs x hx with h1 | h1
        · simp at h1
        · exact Query_mem _ _ _ hq x h1

theorem execInsertAdUnit_none {conn : SqlDB} {fault : Option SqlError} {x : AdUnit}
    (h : (conn.execInsertAdUnit fault x).2 = none) :
    (∀ row ∈ conn.AdUnits, row.ID ≠ x.ID) ∧
      (conn.execInsertAdUnit fault x).1 = { conn with AdUnits := conn.AdUnits ++ [x] } := by
  unfold SqlDB.execInsertAdUnit at h ⊢
  cases fault with
  | some err => simp at h
  | none =>
    by_cases hany : conn.AdUnits.any (fun row => row.ID == x.ID) = true
    · simp [hany] at h
    · simp only [hany, Bool.false_eq_true, if_false, and_true]
      intro row hrow hid
      exact hany (List.any_eq_true.2 ⟨row, hrow, by simpa using hid⟩)

theorem execInsertAdUnit_some {conn : SqlDB} {fault : Option SqlError} {x : AdUnit}
    {err : SqlError} (h : (conn.execInsertAdUnit fault x).2 = some err) :
    (conn.execInsertAdUnit fault x).1 = conn := by
  unfold SqlDB.execInsertAdUnit at h ⊢
  cases fault with
  | some err => rfl
  | none =>
    by_cases hany : conn.AdUnits.any (fun row => row.ID == x.ID) = true
    · simp [hany]
    · simp [hany] at h

theorem execInsertAdUnit_dup {conn : SqlDB} (fault : Option SqlError) {x : AdUnit}
    (h : ∃ row ∈ conn.AdUnits, row.ID = x.ID) :
    (conn.execInsertAdUnit fault x).2 ≠ none := by
  intro hnone
  obtain ⟨row, hrow, hid⟩ := h
  exact (execInsertAdUnit_none hnone).1 row hrow hid

theorem execInsertCreative_none {conn : SqlDB} {fault : Option SqlError} {x : Creative}
    (h : (conn.execInsertCreative fault x).2 = none) :
    (∀ row ∈ conn.Creatives, row.ID ≠ x.ID) ∧
      (conn.execInsertCreative fault x).1 = { conn with Creatives := conn.Creatives ++ [x] } := by
  unfold SqlDB.execInsertCreative at h ⊢
  cases fault with
  | some err => simp at h
  | none =>
    by_cases hany : conn.Creatives.any (fun row => row.ID == x.ID) = true
    · simp [hany] at h
    · simp only [hany, Bool.false_eq_true, if_false, and_true]
      intro row hrow hid
      exact hany (List.any_eq_true.2 ⟨row, hrow, by simpa using hid⟩)

theorem execInsertCreative_some {conn : SqlDB} {fault : Option SqlError} {x : Creative}
    {err : SqlError} (h : (conn.execInsertCreative fault x).2 = some err) :
    (conn.execInsertCreative fault x).1 = conn := by
  unfold SqlDB.execInsertCreative at h ⊢
  cases fault with
  | some err => rfl
  | none =>
    by_cases hany : conn.Creatives.any (fun row => row.ID == x.ID) = true
    · simp [hany]
    · simp [hany] at h

theorem execInsertCreative_dup {conn : SqlDB} (fault : Option SqlError) {x : Creative}
    (h : ∃ row ∈ conn.Creatives, row.ID = x.ID) :
    (conn.execInsertCreative fault x).2 ≠ none := by
  intro hnone
  obtain ⟨row, hrow, hid⟩ := h
  exact (execInsertCreative_none hnone).1 row hrow hid

/-- The two ways `InsertAdUnit` ends, by the result of the store write. -/
theorem InsertAdUnit_eq (db : DB) (fault : Option SqlError) (x : AdUnit) :
    ((db.Connection.execInsertAdUnit fault x).2 = none ∧
      InsertAdUnit db fault x =
        ({ db with Connection := (db.Connection.execInsertAdUnit fault x).1,
                   adUnits := db.adUnits ++ [x] }, none)) ∨
    ((db.Connection.execInsertAdUnit fault x).2 ≠ none ∧
      (InsertAdUnit db fault x).2 ≠ none ∧ (InsertAdUnit db fault x).1 = db) := by
  cases hres : db.Connection.execInsertAdUnit fault x with
  | mk conn oerr =>
    cases oerr with
    | none =>
      left
      simp [InsertAdUnit, hres]
    | some err =>
      right
      have hconn : conn = db.Connection := by
        have := @execInsertAdUnit_some db.Connection fault x err (by rw [hres])
        rw [hres] at this
        exact this
      subst hconn
      by_cases hc : isConstraint err = true <;> simp [InsertAdUnit, hres, hc]

/-- The two ways `InsertCreative` ends, by the result of the store write. -/
theorem InsertCreative_eq (db : DB) (fault : Option SqlError) (x : Creative) :
    ((db.Connection.execInsertCreative fault x).2 = none ∧
      InsertCreative db fault x =
        ({ db with Connection := (db.Connection.execInsertCreative fault x).1,
                   creatives := db.creatives ++ [x] }, none)) ∨
    ((db.Connection.execInsertCreative fault x).2 ≠ none ∧
      (InsertCreative db fault x).2 ≠ none ∧ (InsertCreative db fault x).1 = db) := by
  cases hres : db.Connection.execInsertCreative fault x with
  | mk conn oerr =>
    cases oerr with
    | none =>
      left
      simp [InsertCreative, hres]
    | some err =>
      right
      have hconn : conn = db.Connection := by
        have := @execInsertCreative_some db.Connection fault x err (by rw [hres])
        rw [hres] at this
        exact this
      subst hconn
      by_cases hc : isConstraint err = true <;> simp [InsertCreative, hres, hc]

/-- The two ways `RefreshCache` ends. -/
theorem RefreshCache_eq (db : DB) (fa fc : QueryFault) :
    (∃ adUnits creatives, getAllAdUnits db.Connection fa = Except.ok adUnits ∧
      getAllCreatives db.Connection fc = Except.ok creatives ∧
      RefreshCache db fa fc = ({ db with adUnits := adUnits, creatives := creatives }, none)) ∨
    (((∃ e, getAllAdUnits db.Connection fa = Except.error e) ∨
        ∃ e, getAllCreatives db.Connection fc = Except.error e) ∧
      (RefreshCache db fa fc).2 ≠ none ∧ (RefreshCache db fa fc).1 = db) := by
  cases ha : getAllAdUnits db.Connection fa with
  | error e =>
    right
    simp [RefreshCache, ha]
  | ok adUnits =>
    cases hc : getAllCreatives db.Connection fc with
    | error e =>
      right
      simp [RefreshCache, ha, hc]
    | ok creatives =>
      left
      exact ⟨adUnits, creatives, rfl, rfl, by simp [RefreshCache, ha, hc]⟩

/-- What the scan of `GetAdUnitByID` returns, by the content of the sequence. -/
theorem GetAdUnitByID_loop_spec (id : String) (l : List AdUnit) :
    ((∀ a ∈ l, a.ID ≠ id) ∧
      GetAdUnitByID.loop id l = Except.error (DBError.errorf "AdUnit not found" none)) ∨
    (∃ pre a post, l = pre ++ a :: post ∧ a.ID = id ∧ (∀ x ∈ pre, x.ID ≠ id) ∧
      GetAdUnitByID.loop id l = Except.ok a) := by
  induction l with
  | nil => left; simp [GetAdUnitByID.loop]
  | cons y ys ih =>
    by_cases hy : y.ID = id
    · right
      exact ⟨[], y, ys, rfl, hy, by simp, by simp [GetAdUnitByID.loop, hy]⟩
    · rcases ih with ⟨hno, hres⟩ | ⟨pre, a, post, hl, ha, hpre, hres⟩
      · left
        refine ⟨?_, by simp [GetAdUnitByID.loop, hy, hres]⟩
        intro a ha
        rcases List.mem_cons.1 ha with h1 | h1
        · rw [h1]; exact hy
        · exact hno a h1
      · right
        refine ⟨y :: pre, a, post, by simp [hl], ha, ?_, by simp [GetAdUnitByID.loop, hy, hres]⟩
        intro x hx
        rcases List.mem_cons.1 hx with h1 | h1
        · rw [h1]; exact hy
        · exact hpre x h1

/-- What the scan of `GetCreativeByID` returns, by the content of the sequence. -/
theorem GetCreativeByID_loop_spec (id : String) (l : List Creative) :
    ((∀ a ∈ l, a.ID ≠ id) ∧
      GetCreativeByID.loop id l = Except.error (DBError.errorf "creative not found" none)) ∨
    (∃ pre a post, l = pre ++ a :: post ∧ a.ID = id ∧ (∀ x ∈ pre, x.ID ≠ id) ∧
      GetCreativeByID.loop id l = Except.ok a) := by
  induction l with
  | nil => left; simp [GetCreativeByID.loop]
  | cons y ys ih =>
    by_cases hy : y.ID = id
    · right
      exact ⟨[], y, ys, rfl, hy, by simp, by simp [GetCreativeByID.loop, hy]⟩
    · rcases ih with ⟨hno, hres⟩ | ⟨pre, a, post, hl, ha, hpre, hres⟩
      · left
        refine ⟨?_, by simp [GetCreativeByID.loop, hy, hres]⟩
        intro a ha
        rcases List.mem_cons.1 ha with h1 | h1
        · rw [h1]; exact hy
        · exact hno a h1
      · right
        refine ⟨y :: pre, a, post, by simp [hl], ha, ?_,
          by simp [GetCreativeByID.loop, hy, hres]⟩
        intro x hx
        rcases List.mem_cons.1 hx with h1 | h1
        · rw [h1]; exact hy
        · exact hpre x h1

theorem NewDB_ok {file : SqlDB} {env : NewDBEnv} {db : DB} (h : NewDB file env = Except.ok db) :
    db.Connection = file ∧ getAllAdUnits file env.loadAdUnits = Except.ok db.adUnits ∧
      getAllCreatives file env.loadCreatives = Except.ok db.creatives := by
  unfold NewDB at h
  split at h
  · simp at h
  · split at h
    · simp at h
    · cases ha : getAllAdUnits file env.loadAdUnits with
      | error e => simp [ha] at h
      | ok adUnits =>
        cases hc : getAllCreatives file env.loadCreatives with
        | error e => simp [ha, hc] at h
        | ok creatives =>
          simp only [ha, hc, Except.ok.injEq] at h
          subst h
          exact ⟨rfl, rfl, rfl⟩

/-- `NewDB` makes a cache whose keys are keys of the store. -/
theorem KeysStored_newDB {file : SqlDB} {env : NewDBEnv} {db : DB}
    (h : NewDB file env = Except.ok db) : KeysStored db := by
  obtain ⟨hconn, ha, hc⟩ := NewDB_ok h
  rw [KeysStored, hconn]
  exact ⟨fun a h1 => ⟨a, getAllAdUnits_mem ha a h1, rfl⟩,
    fun c h1 => ⟨c, getAllCreatives_mem hc c h1, rfl⟩⟩

/-- `RefreshCache` keeps the keys of the cache among the keys of the store. -/
theorem KeysStored_refreshCache {db : DB} (fa fc : QueryFault) (ih : KeysStored db) :
    KeysStored (RefreshCache db fa fc).1 := by
  rcases RefreshCache_eq db fa fc with ⟨adUnits, creatives, ha, hc, heq⟩ | ⟨_, _, heq⟩
  · rw [heq]
    exact ⟨fun a h1 => ⟨a, getAllAdUnits_mem ha a h1, rfl⟩,
      fun c h1 => ⟨c, getAllCreatives_mem hc c h1, rfl⟩⟩
  · rw [heq]; exact ih

/-- `InsertAdUnit` keeps the keys of the cache among the keys of the store. -/
theorem KeysStored_insertAdUnit {db : DB} (fault : Option SqlError) (x : AdUnit)
    (ih : KeysStored db) : KeysStored (InsertAdUnit db fault x).1 := by
  rcases InsertAdUnit_eq db fault x with ⟨hnone, heq⟩ | ⟨_, _, heq⟩
  · rw [heq, (execInsertAdUnit_none hnone).2]
    refine ⟨?_, ih.2⟩
    intro a ha
    rcases List.mem_append.1 ha with h1 | h1
    · obtain ⟨row, hrow, hid⟩ := ih.1 a h1
      exact ⟨row, List.mem_append_left _ hrow, hid⟩
    · exact ⟨a, List.mem_append_right _ h1, rfl⟩
  · rw [heq]; exact ih

/-- `InsertCreative` keeps the keys of the cache among the keys of the store. -/
theorem KeysStored_insertCreative {db : DB} (fault : Option SqlError) (x : Creative)
    (ih : KeysStored db) : KeysStored (InsertCreative db fault x).1 := by
  rcases InsertCreative_eq db fault x with ⟨hnone, heq⟩ | ⟨_, _, heq⟩
  · rw [heq, (execInsertCreative_none hnone).2]
    refine ⟨ih.1, ?_⟩
    intro a ha
    rcases List.mem_append.1 ha with h1 | h1
    · obtain ⟨row, hrow, hid⟩ := ih.2 a h1
      exact ⟨row, List.mem_append_left _ hrow, hid⟩
    · exact ⟨a, List.mem_append_right _ h1, rfl⟩
  · rw [heq]; exact ih

/-- A cache whose entries are rows of the store, such as a snapshot that lags
the store or an older load swapped in after the store has grown, has its keys
among the keys of the store. -/
theorem KeysStored_of_rows {db : DB} (ha : ∀ a ∈ db.adUnits, a ∈ db.Connection.AdUnits)
    (hc : ∀ c ∈ db.creatives, c ∈ db.Connection.Creatives) : KeysStored db :=
  ⟨fun a h1 => ⟨a, ha a h1, rfl⟩, fun c h1 => ⟨c, hc c h1, rfl⟩⟩

/-- After an append, the scan for the key of the appended ad unit succeeds with
an ad unit of that key, and with the appended one when every former entry of
that key equals it. -/
theorem GetAdUnitByID_loop_after_append (p : AdUnit) (l : List AdUnit) :
    (∃ a, GetAdUnitByID.loop p.ID (l ++ [p]) = Except.ok a ∧ a.ID = p.ID) ∧
    ((∀ a ∈ l, a.ID = p.ID → a = p) →
      GetAdUnitByID.loop p.ID (l ++ [p]) = Except.ok p) := by
  rcases GetAdUnitByID_loop_spec p.ID (l ++ [p]) with ⟨hno, _⟩ | ⟨pre, a, post, hl, ha, _, hres⟩
  · exact absurd rfl (hno p (by simp))
  · refine ⟨⟨a, hres, ha⟩, ?_⟩
    intro hsame
    have hmem : a ∈ l ++ [p] := by rw [hl]; simp
    have hap : a = p := by
      rcases List.mem_append.1 hmem with h1 | h1
      · exact hsame a h1 ha
      · exact List.mem_singleton.1 h1
    rw [hres, hap]

/-- After an append, the scan for the key of the appended creative succeeds with
a creative of that key, and with the appended one when every former entry of
that key equals it. -/
theorem GetCreativeByID_loop_after_append (c : Creative) (l : List Creative) :
    (∃ a, GetCreativeByID.loop c.ID (l ++ [c]) = Except.ok a ∧ a.ID = c.ID) ∧
    ((∀ a ∈ l, a.ID = c.ID → a = c) →
      GetCreativeByID.loop c.ID (l ++ [c]) = Except.ok c) := by
  rcases GetCreativeByID_loop_spec c.ID (l ++ [c]) with ⟨hno, _⟩ | ⟨pre, a, post, hl, ha, _, hres⟩
  · exact absurd rfl (hno c (by simp))
  · refine ⟨⟨a, hres, ha⟩, ?_⟩
    intro hsame
    have hmem : a ∈ l ++ [c] := by rw [hl]; simp
    have hac : a = c := by
      rcases List.mem_append.1 hmem with h1 | h1
      · exact hsame a h1 ha
      · exact List.mem_singleton.1 h1
    rw [hres, hac]

/-! ## The cache: the results -/

/-- C5: when the store write of `InsertAdUnit` or `InsertCreative` fails, and in
particular when the store already holds a row with the key of the entity, the
call returns an error and leaves both cached sequences as they were. -/
theorem insert_failure_keeps_cache (db : DB) (fault : Option SqlError) :
    (∀ x : AdUnit,
      ((db.Connection.execInsertAdUnit fault x).2 ≠ none ∨
        ∃ row ∈ db.Connection.AdUnits, row.ID = x.ID) →
      (InsertAdUnit db fault x).2 ≠ none ∧
        (InsertAdUnit db fault x).1.adUnits = db.adUnits ∧
        (InsertAdUnit db fault x).1.creatives = db.creatives) ∧
    (∀ x : Creative,
      ((db.Connection.execInsertCreative fault x).2 ≠ none ∨
        ∃ row ∈ db.Connection.Creatives, row.ID = x.ID) →
      (InsertCreative db fault x).2 ≠ none ∧
        (InsertCreative db fault x).1.adUnits = db.adUnits ∧
        (InsertCreative db fault x).1.creatives = db.creatives) := by
  constructor
  · intro x h
    have hfail : (db.Connection.execInsertAdUnit fault x).2 ≠ none :=
      h.elim id (execInsertAdUnit_dup fault)
    rcases InsertAdUnit_eq db fault x with ⟨hnone, _⟩ | ⟨_, herr, heq⟩
    · exact absurd hnone hfail
    · exact ⟨herr, by rw [heq], by rw [heq]⟩
  · intro x h
    have hfail : (db.Connection.execInsertCreative fault x).2 ≠ none :=
      h.elim id (execInsertCreative_dup fault)
    rcases InsertCreative_eq db fault x with ⟨hnone, _⟩ | ⟨_, herr, heq⟩
    · exact absurd hnone hfail
    · exact ⟨herr, by rw [heq], by rw [heq]⟩

/-- Two ad units with one key inserted in a row into the fresh cache, a second
ad unit with a stored key, and a creative insert during an outage. -/
theorem insert_failure_keeps_cache_witness :
    ((InsertAdUnit exFreshDB none exAdUnit).2 = none ∧
      (InsertAdUnit (InsertAdUnit exFreshDB none exAdUnit).1 none exAdUnitSameKey).2 =
        some (DBError.errorf "a AdUnit with ID '%s' already exists" (some "adunit1")) ∧
      (InsertAdUnit (InsertAdUnit exFreshDB none exAdUnit).1 none exAdUnitSameKey).1.adUnits
        = [exAdUnit]) ∧
    ((InsertAdUnit exDB none exAdUnitSameKey).2 =
        some (DBError.errorf "a AdUnit with ID '%s' already exists" (some "adunit1")) ∧
      (InsertAdUnit exDB none exAdUnitSameKey).2 ≠ none ∧
      (InsertAdUnit exDB none exAdUnitSameKey).1.adUnits = exDB.adUnits ∧
      (InsertAdUnit exDB none exAdUnitSameKey).1.creatives = exDB.creatives) ∧
    ((InsertCreative exDB (some SqlError.other) exCreativeTie).2 ≠ none ∧
      (InsertCreative exDB (some SqlError.other) exCreativeTie).1.adUnits = exDB.adUnits ∧
      (InsertCreative exDB (some SqlError.other) exCreativeTie).1.creatives = exDB.creatives) :=
  ⟨by decide,
    ⟨by decide,
      (insert_failure_keeps_cache exDB none).1 exAdUnitSameKey
        (Or.inr ⟨exAdUnit, by decide, by decide⟩)⟩,
    (insert_failure_keeps_cache exDB (some SqlError.other)).2 exCreativeTie
      (Or.inl (by decide))⟩

/-- C6 (as amended): after a successful `InsertAdUnit p`, the call
`GetAdUnitByID p.ID` succeeds and returns a cached ad unit with the key of `p`;
it returns `p` itself when every ad unit that was cached before the insert
under the key of `p` equals `p`, and so whenever every cached ad unit key is a
key of the store.  The same holds of `InsertCreative c` and
`GetCreativeByID c.ID`. -/
theorem insert_then_get (db : DB) (fault : Option SqlError) :
    (∀ p : AdUnit, (InsertAdUnit db fault p).2 = none →
      (∃ a, (GetAdUnitByID (InsertAdUnit db fault p).1 p.ID).2 = Except.ok a ∧
        a.ID = p.ID) ∧
      ((∀ a ∈ db.adUnits, a.ID = p.ID → a = p) →
        (GetAdUnitByID (InsertAdUnit db fault p).1 p.ID).2 = Except.ok p) ∧
      ((∀ a ∈ db.adUnits, ∃ row ∈ db.Connection.AdUnits, row.ID = a.ID) →
        (GetAdUnitByID (InsertAdUnit db fault p).1 p.ID).2 = Except.ok p)) ∧
    (∀ c : Creative, (InsertCreative db fault c).2 = none →
      (∃ a, (GetCreativeByID (InsertCreative db fault c).1 c.ID).2 = Except.ok a ∧
        a.ID = c.ID) ∧
      ((∀ a ∈ db.creatives, a.ID = c.ID → a = c) →
        (GetCreativeByID (InsertCreative db fault c).1 c.ID).2 = Except.ok c) ∧
      ((∀ a ∈ db.creatives, ∃ row ∈ db.Connection.Creatives, row.ID = a.ID) →
        (GetCreativeByID (InsertCreative db fault c).1 c.ID).2 = Except.ok c)) := by
  constructor
  · intro p hp
    rcases InsertAdUnit_eq db fault p with ⟨hnone, heq⟩ | ⟨_, herr, _⟩
    · rw [heq]
      have hloop := GetAdUnitByID_loop_after_append p db.adUnits
      refine ⟨hloop.1, hloop.2, ?_⟩
      intro hkeys
      apply hloop.2
      intro a ha hid
      obtain ⟨row, hrow, hrid⟩ := hkeys a ha
      exact absurd (hrid.trans hid) ((execInsertAdUnit_none hnone).1 row hrow)
    · exact absurd hp herr
  · intro c hc
    rcases InsertCreative_eq db fault c with ⟨hnone, heq⟩ | ⟨_, herr, _⟩
    · rw [heq]
      have hloop := GetCreativeByID_loop_after_append c db.creatives
      refine ⟨hloop.1, hloop.2, ?_⟩
      intro hkeys
      apply hloop.2
      intro a ha hid
      obtain ⟨row, hrow, hrid⟩ := hkeys a ha
      exact absurd (hrid.trans hid) ((execInsertCreative_none hnone).1 row hrow)
    · exact absurd hc herr

/-- A second ad unit inserted into the cache of `exFile`, and a third creative
inserted into a cache that lags the store `exFile`. -/
theorem insert_then_get_witness :
    ((InsertAdUnit exDB none exAdUnit2).2 = none ∧
      (∀ a ∈ exDB.adUnits, a.ID = exAdUnit2.ID → a = exAdUnit2) ∧
      (GetAdUnitByID (InsertAdUnit exDB none exAdUnit2).1 exAdUnit2.ID).2
        = Except.ok exAdUnit2) ∧
    ((InsertCreative exLaggingDB none exCreative20).2 = none ∧
      (∀ a ∈ exLaggingDB.creatives, ∃ row ∈ exLaggingDB.Connection.Creatives,
        row.ID = a.ID) ∧
      (GetCreativeByID (InsertCreative exLaggingDB none exCreative20).1 exCreative20.ID).2
        = Except.ok exCreative20) :=
  ⟨⟨by decide, by decide,
      ((insert_then_get exDB none).1 exAdUnit2 (by decide)).2.1 (by decide)⟩,
    ⟨by decide, by decide,
      ((insert_then_get exLaggingDB none).2 exCreative20 (by decide)).2.2 (by decide)⟩⟩

/-- The round trip does not hold of every cache state: over a store from which
another writer has deleted the rows, the cache still holds `adunit1` and
`creative1`; the insert of another entity under that key succeeds, and the
lookup returns the older cached entry, not the inserted one. -/
theorem insert_then_get_counterexample :
    ((InsertAdUnit exStaleDB none exAdUnitSameKey).2 = none ∧
      (GetAdUnitByID (InsertAdUnit exStaleDB none exAdUnitSameKey).1 exAdUnitSameKey.ID).2
        = Except.ok exAdUnit ∧
      exAdUnit ≠ exAdUnitSameKey) ∧
    ((InsertCreative exStaleDB none exCreativeSameKey).2 = none ∧
      (GetCreativeByID (InsertCreative exStaleDB none exCreativeSameKey).1
        exCreativeSameKey.ID).2 = Except.ok exCreative15 ∧
      exCreative15 ≠ exCreativeSameKey) ∧
    ¬ (∀ (db : DB) (fault : Option SqlError) (p : AdUnit),
        (InsertAdUnit db fault p).2 = none →
          (GetAdUnitByID (InsertAdUnit db fault p).1 p.ID).2 = Except.ok p) := by
  refine ⟨⟨by decide, rfl, by decide⟩, ⟨by decide, rfl, by decide⟩, ?_⟩
  intro hall
  have h := hall exStaleDB none exAdUnitSameKey (by decide)
  have hold : (GetAdUnitByID (InsertAdUnit exStaleDB none exAdUnitSameKey).1
      exAdUnitSameKey.ID).2 = Except.ok exAdUnit := rfl
  rw [hold] at h
  exact absurd (Except.ok.inj h) (by decide)

/-- C7: when the load of the ad units or the load of the creatives fails,
`RefreshCache` returns an error and leaves both cached sequences as they were,
so `GetAdUnitByID`, `GetCreativeByID` and `GetCreatives` return after it what
they returned before it. -/
theorem refreshCache_failure_keeps_cache (db : DB) (fa fc : QueryFault)
    (h : (∃ e, getAllAdUnits db.Connection fa = Except.error e) ∨
      ∃ e, getAllCreatives db.Connection fc = Except.error e) :
    (RefreshCache db fa fc).2 ≠ none ∧
      (RefreshCache db fa fc).1.adUnits = db.adUnits ∧
      (RefreshCache db fa fc).1.creatives = db.creatives ∧
      (∀ id, (GetAdUnitByID (RefreshCache db fa fc).1 id).2 = (GetAdUnitByID db id).2) ∧
      (∀ id, (GetCreativeByID (RefreshCache db fa fc).1 id).2 = (GetCreativeByID db id).2) ∧
      (GetCreatives (RefreshCache db fa fc).1).2 = (GetCreatives db).2 := by
  rcases RefreshCache_eq db fa fc with ⟨adUnits, creatives, ha, hc, _⟩ | ⟨_, herr, heq⟩
  · rcases h with ⟨e, he⟩ | ⟨e, he⟩
    · rw [ha] at he; cases he
    · rw [hc] at he; cases he
  · rw [heq]
    exact ⟨herr, rfl, rfl, fun _ => rfl, fun _ => rfl, rfl⟩

/-- The load of the ad units succeeds and the load of the creatives fails. -/
theorem refreshCache_failure_keeps_cache_witness :
    getAllAdUnits exDB.Connection QueryFault.none = Except.ok [exAdUnit] ∧
    getAllCreatives exDB.Connection (QueryFault.scan 1 SqlError.other) =
      Except.error (DBError.wrapSql "failed to scan Creative: %w" SqlError.other) ∧
    (RefreshCache exDB QueryFault.none (QueryFault.scan 1 SqlError.other)).2 ≠ none ∧
    (RefreshCache exDB QueryFault.none (QueryFault.scan 1 SqlError.other)).1.adUnits
      = exDB.adUnits ∧
    (RefreshCache exDB QueryFault.none (QueryFault.scan 1 SqlError.other)).1.creatives
      = exDB.creatives :=
  ⟨rfl, rfl,
    (refreshCache_failure_keeps_cache exDB QueryFault.none (QueryFault.scan 1 SqlError.other)
      (Or.inr ⟨_, rfl⟩)).1,
    (refreshCache_failure_keeps_cache exDB QueryFault.none (QueryFault.scan 1 SqlError.other)
      (Or.inr ⟨_, rfl⟩)).2.1,
    (refreshCache_failure_keeps_cache exDB QueryFault.none (QueryFault.scan 1 SqlError.other)
      (Or.inr ⟨_, rfl⟩)).2.2.1⟩

/-- C8: `GetAdUnitByID` leaves the state as it is; it returns the not-found
error exactly when no cached ad unit has the key, it returns no other error, and
it returns `a` exactly when `a` stands at the lowest index of the cached
sequence whose ad unit has the key. -/
theorem GetAdUnitByID_first_match (db : DB) (id : String) :
    (GetAdUnitByID db id).1 = db ∧
    ((GetAdUnitByID db id).2 = Except.error (DBError.errorf "AdUnit not found" none) ↔
      ∀ a ∈ db.adUnits, a.ID ≠ id) ∧
    (∀ e, (GetAdUnitByID db id).2 = Except.error e →
      e = DBError.errorf "AdUnit not found" none) ∧
    (∀ a, (GetAdUnitByID db id).2 = Except.ok a ↔
      ∃ i : Nat, db.adUnits[i]? = some a ∧ a.ID = id ∧
        ∀ j : Nat, j < i → ∀ x : AdUnit, db.adUnits[j]? = some x → x.ID ≠ id) := by
  refine ⟨rfl, ?_, ?_, ?_⟩
  · rcases GetAdUnitByID_loop_spec id db.adUnits with ⟨hno, hres⟩ | ⟨pre, a, post, hl, ha, _, hres⟩
    · simp only [GetAdUnitByID, hres, true_iff]
      exact hno
    · simp only [GetAdUnitByID, hres]
      constructor
      · intro h; cases h
      · intro hno
        exact absurd ha (hno a (by rw [hl]; simp))
  · intro e he
    rcases GetAdUnitByID_loop_spec id db.adUnits with ⟨_, hres⟩ | ⟨pre, a, post, _, _, _, hres⟩
    · simp only [GetAdUnitByID, hres, Except.error.injEq] at he
      exact he.symm
    · simp [GetAdUnitByID, hres] at he
  · intro a
    rcases GetAdUnitByID_loop_spec id db.adUnits with ⟨hno, hres⟩ | ⟨pre, b, post, hl, hb, hpre, hres⟩
    · simp only [GetAdUnitByID, hres]
      constructor
      · intro h; cases h
      · rintro ⟨i, hi, hid, _⟩
        exact absurd hid (hno a (List.getElem?_mem hi))
    · have hbi : db.adUnits[pre.length]? = some b := by
        rw [hl, List.getElem?_append_right (Nat.le_refl _)]; simp
      simp only [GetAdUnitByID, hres, Except.ok.injEq]
      constructor
      · intro hab
        subst hab
        refine ⟨pre.length, hbi, hb, ?_⟩
        intro j hj x hx
        rw [hl, List.getElem?_append_left hj] at hx
        exact hpre x (List.getElem?_mem hx)
      · rintro ⟨i, hi, hid, hfirst⟩
        rcases Nat.lt_trichotomy i pre.length with hlt | heq | hgt
        · rw [hl, List.getElem?_append_left hlt] at hi
          exact absurd hid (hpre a (List.getElem?_mem hi))
        · rw [heq, hbi] at hi
          exact Option.some.inj hi
        · exact absurd hb (hfirst pre.length hgt b hbi)

/-- A lookup that hits the second of three cached ad units, and one that misses. -/
theorem GetAdUnitByID_first_match_witness :
    (GetAdUnitByID ⟨exEmptyFile, [exAdUnit2, exAdUnit, exAdUnitSameKey], []⟩ "adunit1").2
      = Except.ok exAdUnit ∧
    (GetAdUnitByID exDB "adunit9").2 = Except.error (DBError.errorf "AdUnit not found" none) :=
  ⟨((GetAdUnitByID_first_match ⟨exEmptyFile, [exAdUnit2, exAdUnit, exAdUnitSameKey], []⟩
      "adunit1").2.2.2 exAdUnit).2 ⟨1, by decide, by decide, by decide⟩,
    (GetAdUnitByID_first_match exDB "adunit9").2.1.2 (by decide)⟩

/-- C9: `GetCreatives` leaves the state as it is; it returns an error, which is
then the not-found error, exactly when the cached creative sequence is empty,
as it is after `NewDB` on a store without rows; otherwise it returns the cached
sequence. -/
theorem GetCreatives_empty_or_all (db : DB) :
    (GetCreatives db).1 = db ∧
    ((GetCreatives db).2 = Except.error (DBError.errorf "no Creatives found in cache" none) ↔
      db.creatives = []) ∧
    (∀ e, (GetCreatives db).2 = Except.error e →
      e = DBError.errorf "no Creatives found in cache" none) ∧
    (db.creatives ≠ [] → (GetCreatives db).2 = Except.ok db.creatives) ∧
    (∀ (env : NewDBEnv) (fresh : DB), NewDB ⟨[], []⟩ env = Except.ok fresh →
      (GetCreatives fresh).2 = Except.error (DBError.errorf "no Creatives found in cache" none)) := by
  have hspec : ∀ d : DB,
      (d.creatives = [] → GetCreatives d =
        (d, Except.error (DBError.errorf "no Creatives found in cache" none))) ∧
      (d.creatives ≠ [] → GetCreatives d = (d, Except.ok d.creatives)) := by
    intro d
    constructor
    · intro h
      simp [GetCreatives, h]
    · intro h
      simp [GetCreatives, h]
  refine ⟨?_, ?_, ?_, ?_, ?_⟩
  · by_cases h : db.creatives = []
    · rw [(hspec db).1 h]
    · rw [(hspec db).2 h]
  · by_cases h : db.creatives = []
    · rw [(hspec db).1 h]
      simp [h]
    · rw [(hspec db).2 h]
      simp [h]
  · intro e he
    by_cases h : db.creatives = []
    · rw [(hspec db).1 h] at he
      simp only [Except.error.injEq] at he
      exact he.symm
    · rw [(hspec db).2 h] at he
      cases he
  · intro h
    rw [(hspec db).2 h]
  · intro env fresh hnew
    obtain ⟨_, _, hc⟩ := NewDB_ok hnew
    have hnil : fresh.creatives = [] := by
      cases hcs : fresh.creatives with
      | nil => rfl
      | cons c cs =>
        have := getAllCreatives_mem hc c (by rw [hcs]; exact List.mem_cons_self _ _)
        simp at this
    rw [(hspec fresh).1 hnil]

/-- The cache of `exFile`, and the cache made by `NewDB` on the empty store. -/
theorem GetCreatives_empty_or_all_witness :
    (GetCreatives exDB).2 = Except.ok [exCreative15, exCreative30] ∧
    NewDB ⟨[], []⟩ exQuietEnv = Except.ok exFreshDB ∧
    (GetCreatives exFreshDB).2 =
      Except.error (DBError.errorf "no Creatives found in cache" none) :=
  ⟨(GetCreatives_empty_or_all exDB).2.2.2.1 (by decide), rfl,
    (GetCreatives_empty_or_all exDB).2.2.2.2 exQuietEnv exFreshDB rfl⟩

/-- C10: a successful `InsertCreative c` appends `c` to the cached creative
sequence and leaves the cached ad unit sequence as it was, so that
`GetCreatives` then returns the former sequence followed by `c`; a successful
`InsertAdUnit p` appends `p` to the cached ad unit sequence and leaves the
cached creative sequence as it was. -/
theorem insert_success_appends (db : DB) (fault : Option SqlError) :
    (∀ c : Creative, (InsertCreative db fault c).2 = none →
      (InsertCreative db fault c).1.creatives = db.creatives ++ [c] ∧
        (InsertCreative db fault c).1.adUnits = db.adUnits ∧
        (GetCreatives (InsertCreative db fault c).1).2 = Except.ok (db.creatives ++ [c])) ∧
    (∀ p : AdUnit, (InsertAdUnit db fault p).2 = none →
      (InsertAdUnit db fault p).1.adUnits = db.adUnits ++ [p] ∧
        (InsertAdUnit db fault p).1.creatives = db.creatives) := by
  constructor
  · intro c hc
    rcases InsertCreative_eq db fault c with ⟨_, heq⟩ | ⟨_, herr, _⟩
    · rw [heq]
      refine ⟨rfl, rfl, ?_⟩
      simp [GetCreatives]
    · exact absurd hc herr
  · intro p hp
    rcases InsertAdUnit_eq db fault p with ⟨_, heq⟩ | ⟨_, herr, _⟩
    · rw [heq]
      exact ⟨rfl, rfl⟩
    · exact absurd hp herr

/-- A third creative and a second ad unit inserted into the cache of `exFile`. -/
theorem insert_success_appends_witness :
    ((InsertCreative exDB none exCreative20).1.creatives
        = [exCreative15, exCreative30, exCreative20] ∧
      (InsertCreative exDB none exCreative20).1.adUnits = [exAdUnit] ∧
      (GetCreatives (InsertCreative exDB none exCreative20).1).2
        = Except.ok ([exCreative15, exCreative30] ++ [exCreative20])) ∧
    ((InsertAdUnit exDB none exAdUnit2).1.adUnits = [exAdUnit, exAdUnit2] ∧
      (InsertAdUnit exDB none exAdUnit2).1.creatives = [exCreative15, exCreative30]) :=
  ⟨(insert_success_appends exDB none).1 exCreative20 (by decide),
    (insert_success_appends exDB none).2 exAdUnit2 (by decide)⟩

end Adserver
